import Mathlib

/-!
Shallow embedding of `src/GitPulse/plugin.py` (the GitPulse Limnoria plugin),
the component the claims address: the GitHub poller that fetches events and
commits for subscribed repositories and announces them to IRC channels.

Modelling conventions:
* Python strings are Lean `String`; `str.split(sep)` is `splitOnChar`,
  `sep.join(lst)` is `joinNl` (only `'\n'.join` occurs in the source).
* An HTTP response is abstracted to the fields the code reads: status code,
  `ETag` header, parsed `X-RateLimit-Remaining` header, whether `.json()`
  succeeds, and the decoded payload.  A `requests.get` that raises is the
  `none` case of `Option Response`.
* Timestamps are UTC seconds as `Int`; a `created_at` that `strptime`
  rejects is `none` (the code logs a warning and `continue`s).
* The only mutable per-plugin state the fetch path touches is `self.etags`
  (a dict repo → ETag string), modelled as an association list.
* IRC output is observed as the list of `(channel, line)` pairs passed to
  `irc.sendMsg(ircmsgs.privmsg(channel, line))`.
-/

namespace GitPulse

/-- Python `str.split(sep)` for a one-character separator, on the character
list of the string: `""` splits to `[[]]`, and a trailing separator yields a
trailing empty piece, exactly as in Python. -/
def splitOnChar (sep : Char) : List Char → List (List Char)
  | [] => [[]]
  | c :: cs =>
    if c = sep then [] :: splitOnChar sep cs
    else
      match splitOnChar sep cs with
      | [] => [[c]]
      | l :: ls => (c :: l) :: ls

/-- `s.split(sep)` returning strings. -/
def splitStr (sep : Char) (s : String) : List String :=
  (splitOnChar sep s.data).map (fun l => ⟨l⟩)

/-- Python `'\n'.join(lst)`. -/
def joinNl : List String → String
  | [] => ""
  | [s] => s
  | s :: rest => s ++ "\n" ++ joinNl rest

/-- Python `s.split('\n')[0]` (never out of range: `split` is never empty). -/
def firstLine (s : String) : String :=
  (splitStr '\n' s).headD ""

/-- Python `s.split('/')[-1]`. -/
def lastSlashComponent (s : String) : String :=
  (splitStr '/' s).getLastD ""

/-! IRC formatting constants set in `GitPulse.__init__` (lines 68–74). -/

def B : String := "\x02"
def C : String := "\x03"
def RESET : String := "\x0f"
def GREEN : String := "03"
def BLUE : String := "12"
def RED : String := "04"
def YELLOW : String := "08"

/-! ### Raw event payloads (the dictionary fields the formatters read) -/

/-- `event['payload']['pull_request']` fields read by
`format_pull_request_event`. -/
structure PullRequestPayload where
  html_url : String
  title : String
  /-- `pr['head']['ref']` -/
  headRef : String
  deriving Repr, DecidableEq

/-- `event['payload']['issue']` fields read by `format_issues_event`. -/
structure IssuePayload where
  html_url : String
  title : String
  state : String
  deriving Repr, DecidableEq

/-- A raw element of the `/events` JSON array, restricted to the keys the
code reads.  `created_at` is the parsed UTC timestamp, `none` when
`datetime.strptime` raises.  The payload sub-dictionaries are total here;
the code only indexes into the one matching `event['type']`. -/
structure Event where
  type : String
  created_at : Option Int
  /-- `event['actor']['login']` -/
  actorLogin : String
  /-- `event['payload']['action']` -/
  action : String
  pull_request : PullRequestPayload
  issue : IssuePayload
  deriving Repr, DecidableEq

/-- One entry of `event['payload']['commits']` in a push event. -/
structure CommitInfo where
  message : String
  sha : String
  deriving Repr, DecidableEq

/-- The synthetic push event built in `fetch_and_announce_commits`
(lines 279–285): actor login, `payload['commits']`, `payload['ref']`. -/
structure PushEvent where
  actorLogin : String
  commits : List CommitInfo
  ref : String
  deriving Repr, DecidableEq

/-! ### Formatters (plugin.py lines 293–334) -/

/-- `GitPulse.format_push_event`: one line per commit joined with `'\n'`,
or `None` when the commit list is empty. -/
def format_push_event (event : PushEvent) (repo : String) : Option String :=
  let actor := event.actorLogin
  let branch := lastSlashComponent event.ref
  if event.commits = [] then none
  else
    some (joinNl (event.commits.map (fun c =>
      let msg := firstLine c.message
      let url := "https://github.com/" ++ repo ++ "/commit/" ++ c.sha
      B ++ actor ++ B ++ " pushed: " ++ C ++ GREEN ++ "branch: " ++ B ++ branch
        ++ RESET ++ " " ++ msg ++ RESET ++ " to " ++ B ++ repo ++ B ++ ": "
        ++ C ++ BLUE ++ url ++ RESET)))

/-- `GitPulse.format_pull_request_event`. -/
def format_pull_request_event (event : Event) : String :=
  let actor := event.actorLogin
  let pr := event.pull_request
  let action_text :=
    if event.action = "opened" then C ++ GREEN ++ "opened" ++ RESET
    else C ++ BLUE ++ event.action ++ RESET
  B ++ actor ++ B ++ " " ++ action_text ++ " pull request: " ++ C ++ RED
    ++ pr.title ++ RESET ++ " on branch " ++ B ++ pr.headRef ++ B ++ ": "
    ++ C ++ BLUE ++ pr.html_url ++ RESET

/-- `GitPulse.format_issues_event`. -/
def format_issues_event (event : Event) : String :=
  let actor := event.actorLogin
  let issue := event.issue
  let state_text :=
    if issue.state = "open" then C ++ RED ++ "opened" ++ RESET
    else C ++ GREEN ++ "closed" ++ RESET
  B ++ actor ++ B ++ " " ++ C ++ RED ++ "issue" ++ RESET ++ " " ++ state_text
    ++ ": " ++ C ++ RED ++ issue.title ++ RESET ++ " " ++ C ++ BLUE
    ++ issue.html_url ++ RESET

/-! ### Dispatcher (`GitPulse.announce`, lines 336–343) -/

/-- `GitPulse.announce`: a falsy channel (modelled as `""`) is a logged
no-op; otherwise the message is split on `'\n'` and each line is sent as
one `privmsg` to the channel, in order. -/
def announce (message : String) (channel : String) : List (String × String) :=
  if channel = "" then []
  else (splitStr '\n' message).map (fun line => (channel, line))

/-! ### HTTP responses and plugin state -/

/-- The fields of a `requests` response to `GET /repos/{repo}/events` that
`fetch_and_announce` reads.  `jsonOk = false` models `resp.json()` raising;
`events` is the decoded array when it succeeds. -/
structure Response where
  status : Nat
  /-- `resp.headers.get('ETag')` -/
  etag : Option String
  /-- `resp.headers.get('X-RateLimit-Remaining')`, parsed -/
  rateRemaining : Option Nat
  jsonOk : Bool
  events : List Event
  deriving Repr, DecidableEq

/-- One element of the `/commits` JSON array, restricted to the keys the
code reads.  `date` is the parsed `commit['commit']['committer']['date']`,
`none` when `strptime` raises (the per-commit `except` then skips it). -/
structure CommitEntry where
  sha : String
  /-- `commit['commit']['message']` -/
  message : String
  /-- `commit['commit']['committer']['name']` -/
  committerName : String
  date : Option Int
  deriving Repr, DecidableEq

/-- The response to `GET /repos/{repo}/commits` read by
`fetch_and_announce_commits`. -/
structure CommitsResponse where
  status : Nat
  jsonOk : Bool
  commits : List CommitEntry
  deriving Repr, DecidableEq

/-- The per-plugin mutable state read and written by the fetch path:
`self.etags`, the dict mapping repo → last received ETag
(`__init__` line 50 initialises it empty). -/
structure PluginState where
  etags : List (String × String)
  deriving Repr, DecidableEq

/-- `self.etags = {}` in `__init__`. -/
def initState : PluginState := ⟨[]⟩

/-- Python dict lookup `self.etags.get(repo)` on the association list. -/
def lookupEtag (etags : List (String × String)) (repo : String) : Option String :=
  (etags.find? (fun p => p.1 = repo)).map (fun p => p.2)

/-- Python dict assignment `self.etags[repo] = v`. -/
def setEtag (etags : List (String × String)) (repo v : String) :
    List (String × String) :=
  if (etags.find? (fun p => p.1 = repo)).isSome then
    etags.map (fun p => if p.1 = repo then (repo, v) else p)
  else etags ++ [(repo, v)]

/-! ### Event-loop body of `fetch_and_announce` (lines 218–248) -/

/-- Seconds in the 12-hour events cutoff `now - timedelta(hours=12)`. -/
def eventsCutoffSecs : Int := 12 * 3600

/-- Seconds in the 1-hour commits cutoff `now - timedelta(hours=1)`. -/
def commitsCutoffSecs : Int := 3600

/-- The body of the `for event in reversed(events)` loop for one event:
the message announced for it, if any.  An unparseable timestamp or one
older than the cutoff `continue`s; only `PullRequestEvent` and
`IssuesEvent` are announced, and only when the formatted text is truthy. -/
def handleEvent (cutoff : Int) (event : Event) : Option String :=
  match event.created_at with
  | none => none
  | some t =>
    if t < cutoff then none
    else if event.type = "PullRequestEvent" then
      let m := format_pull_request_event event
      if m = "" then none else some m
    else if event.type = "IssuesEvent" then
      let m := format_issues_event event
      if m = "" then none else some m
    else none

/-- The whole event loop: events are traversed in reverse order and every
announced message goes through `announce`.  Returns the `(channel, line)`
pairs sent. -/
def processEvents (channel : String) (now : Int) (events : List Event) :
    List (String × String) :=
  events.reverse.flatMap (fun e =>
    match handleEvent (now - eventsCutoffSecs) e with
    | none => []
    | some m => announce m channel)

/-! ### `fetch_and_announce_commits` (lines 250–291) -/

/-- The body of the `for commit in reversed(commits)` loop for one commit:
the message announced for it, if any.  A bad date or one older than the
cutoff is skipped; otherwise the synthetic push event of lines 279–285 is
formatted. -/
def handleCommit (repo : String) (cutoff : Int) (c : CommitEntry) :
    Option String :=
  match c.date with
  | none => none
  | some t =>
    if t < cutoff then none
    else
      let ev : PushEvent :=
        { actorLogin := c.committerName
          commits := [{ message := c.message, sha := c.sha }]
          ref := "refs/heads/main" }
      match format_push_event ev repo with
      | none => none
      | some m => if m = "" then none else some m

/-- `GitPulse.fetch_and_announce_commits`: a raised request (`none`), a
non-200 status or a JSON failure log and return nothing; otherwise commits
are traversed in reverse order and announced. -/
def fetch_and_announce_commits (repo channel : String)
    (resp : Option CommitsResponse) (now : Int) : List (String × String) :=
  match resp with
  | none => []
  | some r =>
    if r.status ≠ 200 then []
    else if !r.jsonOk then []
    else
      r.commits.reverse.flatMap (fun c =>
        match handleCommit repo (now - commitsCutoffSecs) c with
        | none => []
        | some m => announce m channel)

/-! ### `fetch_and_announce` (lines 139–248) -/

/-- The rate-limit guard of line 191:
`rate_remaining is not None and int(rate_remaining) < 100`. -/
def rateLow (r : Response) : Bool :=
  match r.rateRemaining with
  | some n => n < 100
  | none => false

/-- `GitPulse.fetch_and_announce` for one repo, as a function of the two
HTTP responses (events API, then commits API).  Returns the new plugin
state and the `(channel, line)` pairs sent.  Mirrors the source order:
request failure → return; rate guard → return; 304 → return; non-200 →
return; store received ETag; JSON failure → return (ETag already stored);
event loop; then `fetch_and_announce_commits`. -/
def fetch_and_announce (st : PluginState) (repo channel : String)
    (resp : Option Response) (respCommits : Option CommitsResponse)
    (now : Int) : PluginState × List (String × String) :=
  match resp with
  | none => (st, [])
  | some r =>
    if rateLow r then (st, [])
    else if r.status = 304 then (st, [])
    else if r.status ≠ 200 then (st, [])
    else
      let st' : PluginState :=
        match r.etag with
        | some e => { st with etags := setEtag st.etags repo e }
        | none => st
      if !r.jsonOk then (st', [])
      else
        (st', processEvents channel now r.events
                ++ fetch_and_announce_commits repo channel respCommits now)

/-- The ETag the next fetch of `repo` would send as `If-None-Match`
(line 148: `etag_sent = self.etags.get(repo)`). -/
def etagSent (st : PluginState) (repo : String) : Option String :=
  lookupEtag st.etags repo

/-! ### The polling loop body (lines 126–132) -/

/-- One poll cycle over a channel's subscription list: `fetch_and_announce`
is invoked for every subscribed repo unconditionally, threading the plugin
state; the fetcher results are a function of the repo. -/
def pollCycle (st : PluginState) (channel : String) (subs : List String)
    (resps : String → Option Response × Option CommitsResponse)
    (now : Int) : PluginState × List (String × String) :=
  subs.foldl
    (fun acc repo =>
      let r := fetch_and_announce acc.1 repo channel (resps repo).1
                 (resps repo).2 now
      (r.1, acc.2 ++ r.2))
    (st, [])

/-! ### `subscribe` (lines 345–364) -/

/-- Observable outcome of the `subscribe` command: the subscription list as
stored afterwards, the reply sent, and whether an immediate
`fetch_and_announce` was triggered. -/
structure SubscribeResult where
  subscriptions : List String
  reply : String
  fetched : Bool
  deriving Repr, DecidableEq

/-- `GitPulse.subscribe`: no argument → usage reply; a repo already
present → "Already subscribed" reply, list untouched, no fetch; otherwise
append, save, reply and fetch immediately. -/
def subscribe (subs : List String) (args : List String) (channel : String) :
    SubscribeResult :=
  match args with
  | [] =>
    { subscriptions := subs
      reply := "[GitPulse] Usage: subscribe owner/repo"
      fetched := false }
  | repo :: _ =>
    if repo ∈ subs then
      { subscriptions := subs
        reply := "[GitPulse] Already subscribed to " ++ repo ++ " in channel "
                   ++ channel ++ "."
        fetched := false }
    else
      { subscriptions := subs ++ [repo]
        reply := "[GitPulse] Subscribed to " ++ repo ++ " in channel "
                   ++ channel ++ "."
        fetched := true }

/-! ### String lemmas: splitting and joining on `'\n'` -/

/-- The string contains no newline character. -/
def noNl (s : String) : Prop := '\n' ∉ s.data

instance (s : String) : Decidable (noNl s) := by
  unfold noNl; infer_instance

theorem splitOnChar_ne_nil (sep : Char) : ∀ l : List Char,
    splitOnChar sep l ≠ [] := by
  intro l
  induction l with
  | nil => simp [splitOnChar]
  | cons c cs ih =>
    simp only [splitOnChar]
    by_cases h : c = sep
    · simp [h]
    · simp only [if_neg h]
      cases hs : splitOnChar sep cs <;> simp

theorem splitOnChar_no_sep (sep : Char) : ∀ l : List Char, sep ∉ l →
    splitOnChar sep l = [l] := by
  intro l
  induction l with
  | nil => intro _; rfl
  | cons c cs ih =>
    intro h
    have hc : ¬(c = sep) := by
      intro e; exact h (by simp [e])
    have hcs : sep ∉ cs := by
      intro e; exact h (List.mem_cons_of_mem _ e)
    simp only [splitOnChar, if_neg hc, ih hcs]

theorem splitOnChar_sep_append (sep : Char) (rest : List Char) :
    ∀ l : List Char, sep ∉ l →
    splitOnChar sep (l ++ sep :: rest) = l :: splitOnChar sep rest := by
  intro l
  induction l with
  | nil => intro _; simp [splitOnChar]
  | cons c cs ih =>
    intro h
    have hc : ¬(c = sep) := by
      intro e; exact h (by simp [e])
    have hcs : sep ∉ cs := by
      intro e; exact h (List.mem_cons_of_mem _ e)
    simp only [List.cons_append, splitOnChar, if_neg hc, List.append_eq, ih hcs]

/-- Joining lines with `'\n'` and splitting on `'\n'` round-trips for a
nonempty list of newline-free lines: nothing is merged, dropped or
truncated. -/
theorem splitStr_joinNl : ∀ lines : List String, lines ≠ [] →
    (∀ s ∈ lines, noNl s) → splitStr '\n' (joinNl lines) = lines := by
  intro lines
  induction lines with
  | nil => intro hne _; exact absurd rfl hne
  | cons s rest ih =>
    intro _ h
    have hs : '\n' ∉ s.data := h s (by simp)
    cases rest with
    | nil =>
      show splitStr '\n' (joinNl [s]) = [s]
      simp [joinNl, splitStr, splitOnChar_no_sep _ _ hs]
    | cons t rest2 =>
      have step : joinNl (s :: t :: rest2) = s ++ "\n" ++ joinNl (t :: rest2) := rfl
      rw [step]
      show (splitOnChar '\n' (s ++ "\n" ++ joinNl (t :: rest2)).data).map
          (fun l => (⟨l⟩ : String)) = s :: t :: rest2
      have hdata : (s ++ "\n" ++ joinNl (t :: rest2)).data
          = s.data ++ '\n' :: (joinNl (t :: rest2)).data := by
        simp [String.data_append]
      rw [hdata, splitOnChar_sep_append _ _ _ hs, List.map_cons]
      refine congrArg₂ List.cons rfl ?_
      exact ih (by simp) (fun x hx => h x (List.mem_cons_of_mem _ hx))

/-- `announce` on a single newline-free message to a valid channel sends
exactly one message. -/
theorem announce_single (m channel : String) (hch : channel ≠ "")
    (hm : noNl m) : announce m channel = [(channel, m)] := by
  unfold announce splitStr
  rw [if_neg hch, splitOnChar_no_sep _ _ hm]
  rfl

/-- **C7.** For every ordered list of formatted lines (newline-free,
nonempty, as all lines produced by the formatters' `'\n'.join` are) and
every valid destination channel, `announce` sends the lines to that
channel in the given order, exactly one IRC `privmsg` per line, never
merging lines into one message and never truncating or dropping a line. -/
theorem announce_sends_lines_in_order (channel : String) (lines : List String)
    (hch : channel ≠ "") (hne : lines ≠ []) (h : ∀ s ∈ lines, noNl s) :
    announce (joinNl lines) channel = lines.map (fun l => (channel, l)) := by
  unfold announce
  rw [if_neg hch, splitStr_joinNl lines hne h]

/-- Witness for C7 at a concrete channel and two concrete lines. -/
theorem announce_sends_lines_in_order_witness :
    announce (joinNl ["fix bug", "add test"]) "#dev"
      = [("#dev", "fix bug"), ("#dev", "add test")] :=
  announce_sends_lines_in_order "#dev" ["fix bug", "add test"]
    (by decide) (by decide)
    (by intro s hs; fin_cases hs <;> decide)

/-! ### Rate-limit, 304 and ETag behaviour of `fetch_and_announce` -/

/-- **C5.** When the events response reports a remaining quota below the
safety threshold (100), the whole source is skipped for the rest of the
cycle: nothing is dispatched to the destination (the commits request is
not even consulted — the result is independent of `respC`), no error is
surfaced, and the plugin state is unchanged, so nothing suppresses the
attempt on the next cycle (the poll loop calls `fetch_and_announce` for
every subscribed repo unconditionally). -/
theorem rate_limited_source_skipped (st : PluginState) (repo channel : String)
    (respC : Option CommitsResponse) (now : Int) (r : Response) (n : Nat)
    (hn : r.rateRemaining = some n) (h : n < 100) :
    fetch_and_announce st repo channel (some r) respC now = (st, []) := by
  have hrl : rateLow r = true := by
    unfold rateLow; rw [hn]; simpa using h
  unfold fetch_and_announce
  simp [hrl]

/-- Witness for C5: remaining quota 5 on a 200 response with events. -/
theorem rate_limited_source_skipped_witness :
    fetch_and_announce initState "octo/repo" "#dev"
      (some { status := 200, etag := some "W/\"e1\"", rateRemaining := some 5,
              jsonOk := true, events := [] })
      (some { status := 200, jsonOk := true,
              commits := [{ sha := "abc", message := "m", committerName := "n",
                            date := some 999 }] })
      1000 = (initState, []) :=
  rate_limited_source_skipped initState "octo/repo" "#dev"
    (some { status := 200, jsonOk := true,
            commits := [{ sha := "abc", message := "m", committerName := "n",
                          date := some 999 }] })
    1000 _ 5 rfl (by decide)

/-- **C8.** A 304 Not Modified response is treated as "no new data", not an
error: nothing is dispatched, the plugin state is unchanged, and in
particular the stored validator token for the repo is untouched, so the
next fetch sends the same `If-None-Match` value. -/
theorem not_modified_is_no_new_data (st : PluginState) (repo channel : String)
    (respC : Option CommitsResponse) (now : Int) (r : Response)
    (h : r.status = 304) :
    fetch_and_announce st repo channel (some r) respC now = (st, []) ∧
    etagSent (fetch_and_announce st repo channel (some r) respC now).1 repo
      = etagSent st repo := by
  have main : fetch_and_announce st repo channel (some r) respC now = (st, []) := by
    unfold fetch_and_announce
    by_cases hrl : rateLow r <;> simp [hrl, h]
  exact ⟨main, by rw [main]⟩

/-- Witness for C8 at a concrete state holding an ETag for the repo. -/
theorem not_modified_is_no_new_data_witness :
    fetch_and_announce ⟨[("octo/repo", "W/\"t0\"")]⟩ "octo/repo" "#dev"
      (some { status := 304, etag := none, rateRemaining := some 4000,
              jsonOk := true, events := [] }) none 1000
      = (⟨[("octo/repo", "W/\"t0\"")]⟩, []) ∧
    etagSent (fetch_and_announce ⟨[("octo/repo", "W/\"t0\"")]⟩ "octo/repo" "#dev"
      (some { status := 304, etag := none, rateRemaining := some 4000,
              jsonOk := true, events := [] }) none 1000).1 "octo/repo"
      = etagSent ⟨[("octo/repo", "W/\"t0\"")]⟩ "octo/repo" :=
  not_modified_is_no_new_data ⟨[("octo/repo", "W/\"t0\"")]⟩ "octo/repo" "#dev"
    none 1000 _ rfl

/-- **C9.** `subscribe` is idempotent at the command interface: when the
repo is already in the channel's subscription list, the stored list is
returned unchanged (nothing is saved), no fetch is triggered, and the
reply is the already-subscribed notice. -/
theorem subscribe_already_subscribed (subs : List String) (repo : String)
    (rest : List String) (channel : String) (h : repo ∈ subs) :
    subscribe subs (repo :: rest) channel =
      { subscriptions := subs
        reply := "[GitPulse] Already subscribed to " ++ repo ++ " in channel "
                   ++ channel ++ "."
        fetched := false } := by
  unfold subscribe
  simp [h]

/-- Witness for C9 at a concrete subscription list. -/
theorem subscribe_already_subscribed_witness :
    subscribe ["octo/repo", "a/b"] ["octo/repo"] "#dev" =
      { subscriptions := ["octo/repo", "a/b"]
        reply := "[GitPulse] Already subscribed to octo/repo in channel #dev."
        fetched := false } := by
  rw [subscribe_already_subscribed ["octo/repo", "a/b"] "octo/repo" [] "#dev"
    (by decide)]
  decide

/-- Concrete 200 response carrying an ETag but *no* rate-limit header. -/
def respNoQuota : Response :=
  { status := 200, etag := some "W/\"abc\"", rateRemaining := none,
    jsonOk := true, events := [] }

/-- Counterexample to C10 as stated: on a 200 response whose
`X-RateLimit-Remaining` header is absent (so the remaining quota is *not*
reported at or above the threshold), the code still stores the received
ETag — the guard of line 191 only fires when the header is present and
below 100. -/
theorem etag_updated_without_quota_report :
    (fetch_and_announce initState "octo/repo" "#dev" (some respNoQuota)
        none 1000).1.etags = [("octo/repo", "W/\"abc\"")] ∧
    respNoQuota.rateRemaining = none ∧ initState.etags = [] := by
  decide

/-- **C10 (amended).** The stored ETag map is updated only when the events
fetch returns HTTP 200 with an ETag header and the remaining quota is not
reported below the threshold: on transport error, rate-limit skip, 304,
any other non-200 status, or a missing ETag header, `self.etags` is
unchanged for every repository. -/
theorem etags_unchanged_unless_ok (st : PluginState) (repo channel : String)
    (respC : Option CommitsResponse) (now : Int) (resp : Option Response)
    (h : ∀ r, resp = some r →
      r.status ≠ 200 ∨ r.etag = none ∨ rateLow r = true) :
    (fetch_and_announce st repo channel resp respC now).1.etags = st.etags := by
  cases resp with
  | none => rfl
  | some r =>
    unfold fetch_and_announce
    by_cases hrl : rateLow r
    · simp [hrl]
    · by_cases h304 : r.status = 304
      · simp [hrl, h304]
      · by_cases h200 : r.status = 200
        · rcases h r rfl with hs | he | hl
          · exact absurd h200 hs
          · by_cases hj : r.jsonOk <;> simp [hrl, h304, h200, he, hj]
          · exact absurd hl (by simpa using hrl)
        · simp [hrl, h304, h200]

/-- Witness for the amended C10: a 500 response that does carry an ETag
header leaves the map untouched. -/
theorem etags_unchanged_unless_ok_witness :
    (fetch_and_announce initState "octo/repo" "#dev"
      (some { status := 500, etag := some "W/\"x\"", rateRemaining := some 4000,
              jsonOk := true, events := [] }) none 1000).1.etags
      = initState.etags :=
  etags_unchanged_unless_ok initState "octo/repo" "#dev" none 1000 _
    (by intro r hr; cases hr; exact Or.inl (by decide))

/-! ### Time-window exclusion and unknown kinds -/

/-- The event's parsed timestamp is strictly older than the 12-hour events
cutoff.  (An unparseable timestamp is not "old": it is skipped for its own
reason.) -/
def isOldEvent (now : Int) (e : Event) : Bool :=
  match e.created_at with
  | some t => decide (t < now - eventsCutoffSecs)
  | none => false

/-- The commit's date is strictly older than the 1-hour commits cutoff. -/
def isOldCommit (now : Int) (c : CommitEntry) : Bool :=
  match c.date with
  | some t => decide (t < now - commitsCutoffSecs)
  | none => false

theorem handleEvent_old (now : Int) (e : Event) (h : isOldEvent now e = true) :
    handleEvent (now - eventsCutoffSecs) e = none := by
  unfold isOldEvent at h
  unfold handleEvent
  cases hc : e.created_at with
  | none => rfl
  | some t =>
    rw [hc] at h
    simp only [decide_eq_true_eq] at h
    simp [h]

theorem handleCommit_old (repo : String) (now : Int) (c : CommitEntry)
    (h : isOldCommit now c = true) :
    handleCommit repo (now - commitsCutoffSecs) c = none := by
  unfold isOldCommit at h
  unfold handleCommit
  cases hc : c.date with
  | none => rfl
  | some t =>
    rw [hc] at h
    simp only [decide_eq_true_eq] at h
    simp [h]

/-- Elements on which `g` yields nothing can be filtered out of a
`flatMap` without changing the result. -/
theorem flatMap_filter_out {α β : Type} (p : α → Bool) (g : α → List β)
    (hg : ∀ a, p a = true → g a = []) :
    ∀ l : List α, l.flatMap g = (l.filter (fun a => !p a)).flatMap g := by
  intro l
  induction l with
  | nil => rfl
  | cons a l ih =>
    by_cases ha : p a
    · simp [List.flatMap_cons, List.filter_cons, ha, hg a ha, ih]
    · simp [List.flatMap_cons, List.filter_cons, ha, ih]

/-- **C4.** An event or commit whose timestamp is strictly older than the
path's fixed cutoff (12 hours for the events API, 1 hour for the commits
API) is never dispatched, seen or not: removing all such entries from the
fetched payload leaves the announced output unchanged, for every input. -/
theorem old_entries_never_dispatched (repo channel : String) (now : Int)
    (events : List Event) (r : CommitsResponse) :
    processEvents channel now events
      = processEvents channel now (events.filter (fun e => !isOldEvent now e)) ∧
    fetch_and_announce_commits repo channel (some r) now
      = fetch_and_announce_commits repo channel
          (some { r with
                  commits := r.commits.filter (fun c => !isOldCommit now c) })
          now := by
  constructor
  · unfold processEvents
    rw [← List.filter_reverse]
    exact flatMap_filter_out (isOldEvent now)
      (fun e => match handleEvent (now - eventsCutoffSecs) e with
        | none => [] | some m => announce m channel)
      (fun e he => by simp [handleEvent_old now e he]) events.reverse
  · unfold fetch_and_announce_commits
    by_cases hs : r.status = 200
    · by_cases hj : r.jsonOk
      · simp only [hs, hj]
        rw [← List.filter_reverse]
        simp only [ne_eq, not_true_eq_false, if_false, Bool.not_true,
          Bool.false_eq_true, if_false]
        exact flatMap_filter_out (isOldCommit now)
          (fun c => match handleCommit repo (now - commitsCutoffSecs) c with
            | none => [] | some m => announce m channel)
          (fun c hc => by simp [handleCommit_old repo now c hc]) r.commits.reverse
      · simp [hs, hj]
    · simp [hs]

theorem handleEvent_unknown (cutoff : Int) (e : Event)
    (h1 : e.type ≠ "PullRequestEvent") (h2 : e.type ≠ "IssuesEvent") :
    handleEvent cutoff e = none := by
  unfold handleEvent
  cases e.created_at with
  | none => rfl
  | some t => simp [h1, h2]

/-- **C6.** A fetched event whose kind is neither `PullRequestEvent` nor
`IssuesEvent` is silently skipped: it contributes no dispatched line and
no error, and the remaining events are processed exactly as if it were
absent. -/
theorem unknown_kind_skipped (e : Event) (h1 : e.type ≠ "PullRequestEvent")
    (h2 : e.type ≠ "IssuesEvent") (channel : String) (now : Int)
    (es1 es2 : List Event) :
    processEvents channel now (es1 ++ e :: es2)
      = processEvents channel now (es1 ++ es2) := by
  have he : handleEvent (now - eventsCutoffSecs) e = none :=
    handleEvent_unknown _ e h1 h2
  simp [processEvents, List.reverse_append, List.flatMap_append, he]

/-- Witness for C6: a `ForkEvent` between two others changes nothing. -/
theorem unknown_kind_skipped_witness :
    processEvents "#dev" 100000
      ([{ type := "ForkEvent", created_at := some 99000, actorLogin := "alice",
          action := "created",
          pull_request := { html_url := "u", title := "t", headRef := "b" },
          issue := { html_url := "u", title := "t", state := "open" } }] ++
        { type := "ForkEvent", created_at := some 99500, actorLogin := "bob",
          action := "created",
          pull_request := { html_url := "u", title := "t", headRef := "b" },
          issue := { html_url := "u", title := "t", state := "open" } } :: [])
      = processEvents "#dev" 100000
          ([{ type := "ForkEvent", created_at := some 99000,
              actorLogin := "alice", action := "created",
              pull_request := { html_url := "u", title := "t", headRef := "b" },
              issue := { html_url := "u", title := "t", state := "open" } }]
            ++ []) :=
  unknown_kind_skipped
    { type := "ForkEvent", created_at := some 99500, actorLogin := "bob",
      action := "created",
      pull_request := { html_url := "u", title := "t", headRef := "b" },
      issue := { html_url := "u", title := "t", state := "open" } }
    (by decide) (by decide) "#dev" 100000
    [{ type := "ForkEvent", created_at := some 99000, actorLogin := "alice",
       action := "created",
       pull_request := { html_url := "u", title := "t", headRef := "b" },
       issue := { html_url := "u", title := "t", state := "open" } }]
    []

/-! ### Ordering of dispatched events (C3) -/

theorem noNl_append_iff (s t : String) : noNl (s ++ t) ↔ noNl s ∧ noNl t := by
  unfold noNl
  rw [String.data_append]
  simp [List.mem_append, not_or]

theorem append_ne_empty_left (s t : String) (h : s ≠ "") : s ++ t ≠ "" := by
  intro he
  apply h
  have hd := congrArg String.data he
  rw [String.data_append] at hd
  exact String.ext (by rw [(List.append_eq_nil.mp hd).1])

/-- The issues formatter always returns a truthy (nonempty) string. -/
theorem format_issues_event_ne_empty (e : Event) :
    format_issues_event e ≠ "" := by
  simp only [format_issues_event]
  repeat' apply append_ne_empty_left
  decide

/-- The issues formatter emits a single line when the interpolated fields
contain no newline. -/
theorem noNl_format_issues_event (e : Event) (ha : noNl e.actorLogin)
    (ht : noNl e.issue.title) (hu : noNl e.issue.html_url) :
    noNl (format_issues_event e) := by
  simp only [format_issues_event, noNl_append_iff]
  repeat' apply And.intro
  all_goals first
    | assumption
    | decide
    | (split <;> decide)

/-- An in-window `IssuesEvent` is announced with its formatted text. -/
theorem handleEvent_issue (cutoff : Int) (e : Event) (t : Int)
    (hc : e.created_at = some t) (hcut : cutoff ≤ t)
    (hty : e.type = "IssuesEvent") :
    handleEvent cutoff e = some (format_issues_event e) := by
  unfold handleEvent
  rw [hc]
  have h1 : ¬(t < cutoff) := not_lt.mpr hcut
  have h2 : e.type ≠ "PullRequestEvent" := by rw [hty]; decide
  simp [h1, h2, hty, format_issues_event_ne_empty e]

/-- A `flatMap` all of whose steps yield singletons is a `map`. -/
theorem flatMap_singleton_eq_map {α β : Type} (g : α → List β) (f : α → β) :
    ∀ l : List α, (∀ a ∈ l, g a = [f a]) → l.flatMap g = l.map f := by
  intro l
  induction l with
  | nil => intro _; rfl
  | cons a l ih =>
    intro h
    rw [List.flatMap_cons, h a (by simp), List.map_cons,
      ih (fun x hx => h x (List.mem_cons_of_mem _ hx)), List.singleton_append]

/-- An `IssuesEvent` fetched at list position i, newer than the cutoff. -/
def issueEvA : Event :=
  { type := "IssuesEvent", created_at := some 1000, actorLogin := "al",
    action := "opened",
    pull_request := { html_url := "u", title := "t", headRef := "b" },
    issue := { html_url := "ua", title := "First", state := "open" } }

/-- A strictly newer `IssuesEvent` placed after `issueEvA` in the fetched
list, so the fetched list `[issueEvA, issueEvB]` has increasing
timestamps. -/
def issueEvB : Event :=
  { type := "IssuesEvent", created_at := some 2000, actorLogin := "bo",
    action := "opened",
    pull_request := { html_url := "u", title := "t", headRef := "b" },
    issue := { html_url := "ub", title := "Second", state := "open" } }

/-- Counterexample to C3 as stated: for the fetched list
`[issueEvA, issueEvB]` with increasing timestamps (both within the
window), the loop `for event in reversed(events)` dispatches the
formatted line of `issueEvB` first — the reverse of the fetched order,
not the same order. -/
theorem events_not_dispatched_in_fetch_order :
    processEvents "#dev" 2000 [issueEvA, issueEvB]
      = [("#dev", format_issues_event issueEvB),
         ("#dev", format_issues_event issueEvA)] ∧
    format_issues_event issueEvA ≠ format_issues_event issueEvB := by
  decide

/-- The pull-request formatter always returns a truthy (nonempty)
string. -/
theorem format_pull_request_event_ne_empty (e : Event) :
    format_pull_request_event e ≠ "" := by
  simp only [format_pull_request_event]
  repeat' apply append_ne_empty_left
  decide

/-- The pull-request formatter emits a single line when the interpolated
fields contain no newline. -/
theorem noNl_format_pull_request_event (e : Event) (ha : noNl e.actorLogin)
    (hac : noNl e.action) (ht : noNl e.pull_request.title)
    (hr : noNl e.pull_request.headRef) (hu : noNl e.pull_request.html_url) :
    noNl (format_pull_request_event e) := by
  have hat : noNl (if e.action = "opened" then C ++ GREEN ++ "opened" ++ RESET
      else C ++ BLUE ++ e.action ++ RESET) := by
    split
    · decide
    · simp only [noNl_append_iff]
      exact ⟨⟨⟨by decide, by decide⟩, hac⟩, by decide⟩
  simp only [format_pull_request_event, noNl_append_iff]
  repeat' apply And.intro
  all_goals first
    | assumption
    | decide

/-- An in-window `PullRequestEvent` is announced with its formatted
text. -/
theorem handleEvent_pr (cutoff : Int) (e : Event) (t : Int)
    (hc : e.created_at = some t) (hcut : cutoff ≤ t)
    (hty : e.type = "PullRequestEvent") :
    handleEvent cutoff e = some (format_pull_request_event e) := by
  unfold handleEvent
  rw [hc]
  have h1 : ¬(t < cutoff) := not_lt.mpr hcut
  simp [h1, hty, format_pull_request_event_ne_empty e]

/-- The single line the event loop announces for an event of a recognised
kind: the pull-request formatter for a `PullRequestEvent`, the issues
formatter for an `IssuesEvent` (only these two reach a formatter,
lines 235 and 241). -/
def eventLine (e : Event) : String :=
  if e.type = "PullRequestEvent" then format_pull_request_event e
  else format_issues_event e

/-- **C3 (amended).** For events fetched in list order with all of them
announceable (a recognised kind — `PullRequestEvent` or `IssuesEvent` —,
a valid in-window timestamp, and newline-free interpolated fields) and a
valid channel, the formatted lines are dispatched in the *reverse* of
the fetched list order — the code iterates `reversed(events)`, so with
the provider's newest-first ordering the announcements come out
oldest-first (chronological). -/
theorem events_dispatched_in_reverse_fetch_order (channel : String)
    (now : Int) (es : List Event) (hch : channel ≠ "")
    (h : ∀ e ∈ es,
      (∃ t, e.created_at = some t ∧ now - eventsCutoffSecs ≤ t) ∧
      ((e.type = "PullRequestEvent" ∧ noNl e.actorLogin ∧ noNl e.action
          ∧ noNl e.pull_request.title ∧ noNl e.pull_request.headRef
          ∧ noNl e.pull_request.html_url)
        ∨ (e.type = "IssuesEvent" ∧ noNl e.actorLogin
            ∧ noNl e.issue.title ∧ noNl e.issue.html_url))) :
    processEvents channel now es
      = (es.map (fun e => (channel, eventLine e))).reverse := by
  unfold processEvents
  rw [← List.map_reverse]
  apply flatMap_singleton_eq_map
  intro e he
  obtain ⟨⟨t, hc, hcut⟩, hkind⟩ := h e (List.mem_reverse.mp he)
  rcases hkind with ⟨hty, ha, hac, ht, hr, hu⟩ | ⟨hty, ha, ht, hu⟩
  · have hline : eventLine e = format_pull_request_event e := by
      unfold eventLine; rw [if_pos hty]
    rw [handleEvent_pr _ e t hc hcut hty, hline]
    exact announce_single _ _ hch
      (noNl_format_pull_request_event e ha hac ht hr hu)
  · have hline : eventLine e = format_issues_event e := by
      unfold eventLine; rw [if_neg (by rw [hty]; decide)]
    rw [handleEvent_issue _ e t hc hcut hty, hline]
    exact announce_single _ _ hch (noNl_format_issues_event e ha ht hu)

/-- An in-window `PullRequestEvent`, newer than `issueEvA`, exercising
the pull-request branch of the amended C3. -/
def prEvB : Event :=
  { type := "PullRequestEvent", created_at := some 2000, actorLogin := "bo",
    action := "opened",
    pull_request := { html_url := "up", title := "PR", headRef := "feat" },
    issue := { html_url := "u", title := "t", state := "open" } }

/-- Witness for the amended C3 at two concrete events, one of each
recognised kind. -/
theorem events_dispatched_in_reverse_fetch_order_witness :
    processEvents "#dev" 2000 [issueEvA, prEvB]
      = ([issueEvA, prEvB].map
          (fun e => ("#dev", eventLine e))).reverse :=
  events_dispatched_in_reverse_fetch_order "#dev" 2000 [issueEvA, prEvB]
    (by decide)
    (by
      intro e he
      fin_cases he
      · exact ⟨⟨1000, rfl, by decide⟩,
          Or.inr ⟨by decide, by decide, by decide, by decide⟩⟩
      · exact ⟨⟨2000, rfl, by decide⟩,
          Or.inl ⟨by decide, by decide, by decide, by decide, by decide,
            by decide⟩⟩)

/-! ### Re-announcement across polls (C1, C2)

The spec's Seen-Set Tracker (`filter_new` / `commit` over a persisted
`SeenRecord`) has no counterpart in `plugin.py`: the only per-repo state
the fetch path keeps is `self.etags`, and `fetch_and_announce_commits`
keeps no state at all.  The theorems below evaluate the embedded code on
the spec's own scenarios and show the dedup invariants fail. -/

/-- Events-API response used while exercising the commits path: 200, an
ETag, plenty of quota, and no events. -/
def eventsRespE : Response :=
  { status := 200, etag := some "W/\"e1\"", rateRemaining := some 4000,
    jsonOk := true, events := [] }

/-- One commit, 1000 s old at poll time 118000 (inside the 1-hour
window). -/
def commitRespOne : CommitsResponse :=
  { status := 200, jsonOk := true,
    commits := [{ sha := "abc123", message := "Fix crash",
                  committerName := "alice", date := some 117000 }] }

/-- **C1 (failing input).** One commit is fetched and announced; the same
source is polled again with the fetcher returning the same unchanged
response.  The second poll dispatches the very same line again — the code
keeps no record of announced ids, so a committed-as-seen id *is*
re-dispatched, contradicting the claimed invariant. -/
theorem committed_id_redispatched_on_repoll :
    (pollCycle initState "#dev" ["octo/repo"]
      (fun _ => (some eventsRespE, some commitRespOne)) 118000).2 ≠ [] ∧
    (pollCycle
        (pollCycle initState "#dev" ["octo/repo"]
          (fun _ => (some eventsRespE, some commitRespOne)) 118000).1
        "#dev" ["octo/repo"]
        (fun _ => (some eventsRespE, some commitRespOne)) 118000).2
      = (pollCycle initState "#dev" ["octo/repo"]
          (fun _ => (some eventsRespE, some commitRespOne)) 118000).2 := by
  decide

/-- Events-API response with no ETag header, so the plugin state after the
cycle is observably identical to the initial state. -/
def eventsRespPlain : Response :=
  { status := 200, etag := none, rateRemaining := some 4000,
    jsonOk := true, events := [] }

/-- Commits response carrying ids "a", "b", "c" (listed newest-first as
GitHub returns them, so the loop announces a, b, c in sequence), all
within the 1-hour window at poll time 118000. -/
def commitsRespABC : CommitsResponse :=
  { status := 200, jsonOk := true,
    commits :=
      [{ sha := "c", message := "mc", committerName := "alice",
         date := some 117200 },
       { sha := "b", message := "mb", committerName := "alice",
         date := some 117100 },
       { sha := "a", message := "ma", committerName := "alice",
         date := some 117000 }] }

/-- **C2 (failing input).** Scenario C's three commits "a", "b", "c" are
announced in sequence, yet the plugin state afterwards equals the initial
state: no seen-set of any cap exists, nothing retains set-membership for "b"
and "c", and a re-poll announces all three ids again. -/
theorem no_seen_set_after_three_commits :
    (pollCycle initState "#dev" ["octo/repo"]
      (fun _ => (some eventsRespPlain, some commitsRespABC)) 118000).1
      = initState ∧
    (pollCycle initState "#dev" ["octo/repo"]
      (fun _ => (some eventsRespPlain, some commitsRespABC)) 118000).2.length
      = 3 ∧
    pollCycle
        (pollCycle initState "#dev" ["octo/repo"]
          (fun _ => (some eventsRespPlain, some commitsRespABC)) 118000).1
        "#dev" ["octo/repo"]
        (fun _ => (some eventsRespPlain, some commitsRespABC)) 118000
      = pollCycle initState "#dev" ["octo/repo"]
          (fun _ => (some eventsRespPlain, some commitsRespABC)) 118000 := by
  decide

end GitPulse
